import Mathlib

/-!
Shallow embedding of `src/CycleGAN/CycleGAN_DN/models/cycle_gan_model.py`
(class `CycleGANModel`): the training-step algorithm of a CycleGAN variant
with a difference-consistency loss for remote-sensing change detection.

Modelling conventions:
* Image batches are an abstract type `T`; networks, the GAN criterion and the
  L1 criteria are abstract functions (they live in `networks.py` / PyTorch,
  outside the verified file, and the training step treats them as black boxes).
* Difference maps (the second output of a generator and the `*_ref` inputs)
  are modelled concretely, in two views.  `DiffBatch` (a list of samples,
  each a list of spatial positions holding channel values in `ℝ`) is the
  per-sample view used inside `backward_G`, where `tensor / per_sample_norm`
  divides every entry of a sample by that sample's scalar norm — this
  matches the tensor semantics only for single-sample batches.  `Tensor4`
  (`(N, C, H, W)` as nested lists) is the shape-faithful view: there the
  division of the tensor by the `(N,)`-shaped norm vector follows PyTorch's
  right-aligned broadcasting, matching the length-`N` divisor against the
  `W` axis and raising a broadcast error when the shapes are incompatible
  (`bcastDivRow`, `bcast_diff_consistency_loss`).  In both views
  `torch.norm(x, dim=1)` is the Euclidean norm over the channel axis and
  `.mean(dim=(1,2))` the mean over the spatial axes.
* Scalars that can become non-finite through the unguarded division are
  modelled by `Fl`: `Fl.fin x` is a finite value, `Fl.nonfin` stands for any
  non-finite float (inf or NaN).  Division by a zero denominator yields
  `Fl.nonfin`, and `Fl.nonfin` is absorbing for the operations appearing in
  the loss pipeline, matching IEEE propagation along these operations.
* Weights from the option object are rationals (exact arithmetic), cast to
  `ℝ` where they enter a loss expression.
-/

/-- A float-like scalar: either a finite real or a non-finite value
(infinity or NaN, not distinguished). -/
inductive Fl where
  | fin (x : ℝ) : Fl
  | nonfin : Fl

namespace Fl

/-- Addition; non-finite operands propagate. -/
def add : Fl → Fl → Fl
  | fin a, fin b => fin (a + b)
  | _, _ => nonfin

/-- Subtraction; non-finite operands propagate. -/
def sub : Fl → Fl → Fl
  | fin a, fin b => fin (a - b)
  | _, _ => nonfin

/-- Multiplication; non-finite operands propagate (finite · inf is non-finite,
0 · inf is NaN: in every case the result is non-finite). -/
def mul : Fl → Fl → Fl
  | fin a, fin b => fin (a * b)
  | _, _ => nonfin

/-- Division: a zero denominator produces a non-finite value (inf or NaN),
and non-finite operands propagate.  (The finite case x / inf = 0 never occurs
in the embedded pipeline: denominators are always finite.) -/
noncomputable def div : Fl → Fl → Fl
  | fin a, fin b => if b = 0 then nonfin else fin (a / b)
  | _, _ => nonfin

/-- Square root of a float-like scalar. -/
noncomputable def sqrt : Fl → Fl
  | fin a => fin (Real.sqrt a)
  | nonfin => nonfin

instance : Add Fl := ⟨add⟩
instance : Sub Fl := ⟨sub⟩
instance : Mul Fl := ⟨mul⟩

theorem add_def (a b : Fl) : a + b = add a b := rfl
theorem sub_def (a b : Fl) : a - b = sub a b := rfl
theorem mul_def (a b : Fl) : a * b = mul a b := rfl

end Fl

/-- Sum of a list of float-like scalars. -/
def flSum (l : List Fl) : Fl := l.foldr Fl.add (Fl.fin 0)

/-- Mean of a list of float-like scalars (`tensor.mean()`); the mean of an
empty list is 0/0, a non-finite value, as in PyTorch. -/
noncomputable def flMean (l : List Fl) : Fl := Fl.div (flSum l) (Fl.fin l.length)

/-- One sample of a difference map: spatial positions, each holding the list
of channel values.  (Channel axis is `dim=1` of the `(N, C, H, W)` tensor.) -/
abbrev DiffSample := List (List ℝ)

/-- A batch of difference-map samples (axis `N`). -/
abbrev DiffBatch := List DiffSample

/-- Sum of squares of a channel vector. -/
def chanSq (v : List ℝ) : ℝ := (v.map (fun x => x * x)).sum

/-- Euclidean norm of a channel vector: one entry of `torch.norm(x, dim=1)`. -/
noncomputable def chanNorm (v : List ℝ) : ℝ := Real.sqrt (chanSq v)

/-- Mean of a list of reals (mean over the spatial axes). -/
noncomputable def rmean (l : List ℝ) : ℝ := l.sum / l.length

/-- Per-sample scalar norm: `(torch.norm(x, dim=1)).mean(dim=(1,2))` for one
sample — Euclidean norm over channels, averaged over spatial positions. -/
noncomputable def sampleNorm (s : DiffSample) : ℝ := rmean (s.map chanNorm)

/-- Division of one sample's tensor by that sample's scalar norm: every
channel value is divided by the scalar, producing float-like entries
(non-finite on a zero norm).  This is the per-sample reading of
`self.real_diff_A / self.real_diff_A_` (line 220); since PyTorch broadcasts
the `(N,)`-shaped norm vector right-aligned against the `W` axis, this
per-sample reading agrees with the tensor semantics only for single-sample
batches (`N = 1`, the data loader's default) — the shape-faithful embedding
of the division, including the broadcast-error path for `N ≥ 2`, is
`bcastDivRow`/`bcast_diff_consistency_loss` below. -/
noncomputable def divSampleBy (s : DiffSample) (n : ℝ) : List (List Fl) :=
  s.map (fun v => v.map (fun x => Fl.div (Fl.fin x) (Fl.fin n)))

/-- Euclidean norm over the channel axis of a float-like channel difference:
one entry of `torch.norm(diff_norm - real_diff_norm, dim=1)`. -/
noncomputable def subChanNorm (va vb : List Fl) : Fl :=
  Fl.sqrt (flSum ((List.zipWith Fl.sub va vb).map (fun x => Fl.mul x x)))

/-- Difference-consistency loss of one domain, from `backward_G`
(lines 214-234 of `cycle_gan_model.py`), here for the A domain:

    self.diff_A_ = (torch.norm(self.diff_A, dim=1)).mean(dim=(1,2))
    self.real_diff_A_ = (torch.norm(self.real_diff_A, dim=1)).mean(dim=(1,2))
    self.diff_A_norm = self.diff_A / self.diff_A_
    self.real_diff_A_norm = self.real_diff_A / self.real_diff_A_
    self.loss_diff_A =
      (torch.norm(self.diff_A_norm - self.real_diff_A_norm, dim=1)).mean()
      * lambda_A * lambda_diff_s

`gen` is the generator's auxiliary difference output (`diff_A`), `ref` the
reference difference map (`real_diff_A`); the B domain instantiates the same
expression with `diff_B`, `real_diff_B`, `lambda_B`, `lambda_diff_t`.

This is the per-sample view of those lines, valid for single-sample batches
(`N = 1`): it is used inside `backward_G` for the claims about the step's
structure (which do not depend on the inner tensor semantics of the diff
term).  The shape-faithful embedding of lines 214-234 with PyTorch's
right-aligned broadcasting of the `(N,)` norm vector — which raises for
multi-sample batches with `W ≠ N` — is `bcast_diff_consistency_loss`
below; the claims about the diff term's values are settled against it. -/
noncomputable def diff_consistency_loss (gen ref : DiffBatch) (lam lamDiff : ℚ) : Fl :=
  let gen_ := gen.map sampleNorm
  let ref_ := ref.map sampleNorm
  let gen_norm := List.zipWith divSampleBy gen gen_
  let ref_norm := List.zipWith divSampleBy ref ref_
  Fl.mul
    (Fl.mul
      (flMean ((List.zipWith (fun sg sr => List.zipWith subChanNorm sg sr) gen_norm ref_norm).flatten))
      (Fl.fin (lam : ℝ)))
    (Fl.fin (lamDiff : ℝ))

/-- The configuration fields of the option object that the embedded methods
read (`opt.*` accesses in `cycle_gan_model.py`). -/
structure Opt where
  lambda_A : ℚ
  lambda_B : ℚ
  lambda_identity_t : ℚ
  lambda_identity_s : ℚ
  lambda_diff_s : ℚ
  lambda_diff_t : ℚ
  input_nc : Nat
  output_nc : Nat
  isTrain : Bool
  dataset_type : String
  direction : String
  phase : String
deriving DecidableEq

/-- The fail-fast check of `CycleGANModel.__init__` (lines 102-104):

    if self.isTrain:
        if opt.lambda_identity_t > 0.0:
            assert(opt.input_nc == opt.output_nc)

Returns `false` exactly when the assertion fires, i.e. construction fails. -/
def init_identity_check (opt : Opt) : Bool :=
  if opt.isTrain then
    if 0 < opt.lambda_identity_t then opt.input_nc == opt.output_nc else true
  else true

/-- The primitive operations performed by `optimize_parameters`, in the order
the method body executes them. -/
inductive Step where
  | forwardPass : Step
  | setDGrad (flag : Bool) : Step
  | zeroGradG : Step
  | backwardG : Step
  | stepG : Step
  | zeroGradD : Step
  | backwardDA : Step
  | backwardDB : Step
  | stepD : Step
deriving DecidableEq

/-- The operation sequence of `optimize_parameters` (lines 239-253), read off
the method body top to bottom:

    self.forward()
    self.set_requires_grad([self.netD_A, self.netD_B], False)
    self.optimizer_G.zero_grad()
    self.backward_G()
    self.optimizer_G.step()
    self.set_requires_grad([self.netD_A, self.netD_B], True)
    self.optimizer_D.zero_grad()
    self.backward_D_A()
    self.backward_D_B()
    self.optimizer_D.step()
-/
def optimize_parameters_steps : List Step :=
  [Step.forwardPass, Step.setDGrad false, Step.zeroGradG, Step.backwardG, Step.stepG,
   Step.setDGrad true, Step.zeroGradD, Step.backwardDA, Step.backwardDB, Step.stepD]

/-- Modelled from the spec: the operation order asserted by §4.4 ("Phase G:
disable gradient tracking on both discriminators → zero generator optimizer
gradients → run forward pass → compute and back-propagate generator loss →
step generator optimizer.  Phase D: re-enable gradient tracking on both
discriminators → zero discriminator optimizer gradients → compute and
back-propagate D_A loss then D_B loss → step discriminator optimizer"). -/
def spec_phase_order : List Step :=
  [Step.setDGrad false, Step.zeroGradG, Step.forwardPass, Step.backwardG, Step.stepG,
   Step.setDGrad true, Step.zeroGradD, Step.backwardDA, Step.backwardDB, Step.stepD]

/-- Version counters of the two optimizer parameter groups: `gV` counts
`optimizer_G.step()` calls (updating G_A ∪ G_B), `dV` counts
`optimizer_D.step()` calls (updating D_A ∪ D_B). -/
structure ParamVersions where
  gV : Nat
  dV : Nat
deriving DecidableEq

/-- Effect of one primitive operation on the parameter versions: only the
optimizer step calls mutate parameters. -/
def applyStep (p : ParamVersions) (s : Step) : ParamVersions :=
  match s with
  | Step.stepG => { p with gV := p.gV + 1 }
  | Step.stepD => { p with dV := p.dV + 1 }
  | _ => p

/-- Parameter versions after running `optimize_parameters` from fresh
versions `⟨0, 0⟩` when an exception is raised at operation index `k`
(operations `0 .. k-1` complete, the rest are aborted; `k ≥ 10` means the
iteration completes without an exception). -/
def runWithFailureAt (k : Nat) : ParamVersions :=
  (optimize_parameters_steps.take k).foldl applyStep ⟨0, 0⟩

/-- The five derived tensors populated by `CycleGANModel.forward`
(lines 141-146). -/
structure FwdOut (T : Type) where
  fake_B : T
  diff_A : DiffBatch
  rec_A : T
  fake_A : T
  diff_B : DiffBatch
  rec_B : T

/-- The external collaborators of the training step: the two generators
(image → (translated image, auxiliary difference map)), the two
discriminators, the GAN criterion and the two L1 criteria.  They live in
`networks.py` / PyTorch and are treated as opaque functions. -/
structure Nets (T S : Type) where
  netG_A : T → T × DiffBatch
  netG_B : T → T × DiffBatch
  netD_A : T → S
  netD_B : T → S
  criterionGAN : S → Bool → ℝ
  criterionCycle : T → T → ℝ
  criterionIdt : T → T → ℝ

/-- `CycleGANModel.forward` (lines 141-146):

    self.fake_B, self.diff_A = self.netG_A(self.real_A)
    self.rec_A, _ = self.netG_B(self.fake_B)
    self.fake_A, self.diff_B = self.netG_B(self.real_B)
    self.rec_B, _ = self.netG_A(self.fake_A)
-/
def forward {T S : Type} (nets : Nets T S) (real_A real_B : T) : FwdOut T :=
  let pA := nets.netG_A real_A
  let fake_B := pA.1
  let diff_A := pA.2
  let rec_A := (nets.netG_B fake_B).1
  let pB := nets.netG_B real_B
  let fake_A := pB.1
  let diff_B := pB.2
  let rec_B := (nets.netG_A fake_A).1
  ⟨fake_B, diff_A, rec_A, fake_A, diff_B, rec_B⟩

/-- Names of the two generators, used to record which generator evaluations
`backward_G` performs. -/
inductive GenName where
  | G_A : GenName
  | G_B : GenName
deriving DecidableEq

/-- Everything `backward_G` computes: the named scalar losses, the identity
tensors (absent when the identity branch is not taken), the generator
evaluations made inside `backward_G`, and the back-propagation calls it
issues. -/
structure GOut (T : Type) where
  idt_A : Option T
  idt_B : Option T
  idt_A_s : Option T
  idt_B_s : Option T
  loss_idt_A : ℝ
  loss_idt_B : ℝ
  loss_G_A : ℝ
  loss_G_B : ℝ
  loss_cycle_A : ℝ
  loss_cycle_B : ℝ
  loss_diff_A : Fl
  loss_diff_B : Fl
  loss_G : Fl
  gen_calls : List (GenName × T)
  backward_calls : List Fl

/-- `CycleGANModel.backward_G` (lines 180-237), as a pure function of the
configuration, the networks, the inputs of the iteration (`real_A`, `real_B`,
`real_diff_A`, `real_diff_B`) and the tensors produced by `forward`.

The identity branch runs iff `lambda_idt_t > 0 or lambda_idt_s > 0`; in it
the four identity tensors are computed (each a generator evaluation) and the
four weighted L1 terms are summed pairwise; otherwise `loss_idt_A` and
`loss_idt_B` are the scalar 0 and nothing is evaluated.  The
difference-consistency terms instantiate `diff_consistency_loss` for each
domain exactly as lines 214-234 do.  `loss_G` is the sum of the eight terms
in source order and is the single argument of the single `backward()` call. -/
noncomputable def backward_G {T S : Type} (opt : Opt) (nets : Nets T S)
    (real_A real_B : T) (real_diff_A real_diff_B : DiffBatch)
    (fwd : FwdOut T) : GOut T :=
  let lambda_idt_t := opt.lambda_identity_t
  let lambda_idt_s := opt.lambda_identity_s
  let lambda_A := opt.lambda_A
  let lambda_B := opt.lambda_B
  let lambda_diff_s := opt.lambda_diff_s
  let lambda_diff_t := opt.lambda_diff_t
  let idtPart :
      Option T × Option T × Option T × Option T × ℝ × ℝ × List (GenName × T) :=
    if 0 < lambda_idt_t ∨ 0 < lambda_idt_s then
      let idt_A := (nets.netG_A real_B).1
      let loss_idt_A_t := nets.criterionIdt idt_A real_B * (lambda_B : ℝ) * (lambda_idt_t : ℝ)
      let idt_B := (nets.netG_B real_A).1
      let loss_idt_B_t := nets.criterionIdt idt_B real_A * (lambda_A : ℝ) * (lambda_idt_t : ℝ)
      let idt_A_s := (nets.netG_A real_A).1
      let loss_idt_A_s := nets.criterionIdt idt_A_s real_A * (lambda_A : ℝ) * (lambda_idt_s : ℝ)
      let idt_B_s := (nets.netG_B real_B).1
      let loss_idt_B_s := nets.criterionIdt idt_B_s real_B * (lambda_B : ℝ) * (lambda_idt_s : ℝ)
      ⟨some idt_A, some idt_B, some idt_A_s, some idt_B_s,
       loss_idt_A_t + loss_idt_A_s, loss_idt_B_t + loss_idt_B_s,
       [(GenName.G_A, real_B), (GenName.G_B, real_A),
        (GenName.G_A, real_A), (GenName.G_B, real_B)]⟩
    else
      ⟨none, none, none, none, 0, 0, []⟩
  let loss_idt_A := idtPart.2.2.2.2.1
  let loss_idt_B := idtPart.2.2.2.2.2.1
  let loss_G_A := nets.criterionGAN (nets.netD_A fwd.fake_B) true
  let loss_G_B := nets.criterionGAN (nets.netD_B fwd.fake_A) true
  let loss_cycle_A := nets.criterionCycle fwd.rec_A real_A * (lambda_A : ℝ)
  let loss_cycle_B := nets.criterionCycle fwd.rec_B real_B * (lambda_B : ℝ)
  let loss_diff_A := diff_consistency_loss fwd.diff_A real_diff_A lambda_A lambda_diff_s
  let loss_diff_B := diff_consistency_loss fwd.diff_B real_diff_B lambda_B lambda_diff_t
  let loss_G :=
    Fl.fin loss_G_A + Fl.fin loss_G_B + Fl.fin loss_cycle_A + Fl.fin loss_cycle_B +
      Fl.fin loss_idt_A + Fl.fin loss_idt_B + loss_diff_A + loss_diff_B
  { idt_A := idtPart.1
    idt_B := idtPart.2.1
    idt_A_s := idtPart.2.2.1
    idt_B_s := idtPart.2.2.2.1
    loss_idt_A := loss_idt_A
    loss_idt_B := loss_idt_B
    loss_G_A := loss_G_A
    loss_G_B := loss_G_B
    loss_cycle_A := loss_cycle_A
    loss_cycle_B := loss_cycle_B
    loss_diff_A := loss_diff_A
    loss_diff_B := loss_diff_B
    loss_G := loss_G
    gen_calls := idtPart.2.2.2.2.2.2
    backward_calls := [loss_G] }

/-- A tensor argument of a discriminator forward, tagged with whether it is
attached to the autograd graph (`tracked`) or was cut from it by
`.detach()`. -/
inductive GradTag (T : Type) where
  | tracked (t : T) : GradTag T
  | detached (t : T) : GradTag T

/-- `CycleGANModel.backward_D_basic` (lines 148-168):

    pred_real = netD(real)
    loss_D_real = self.criterionGAN(pred_real, True)
    pred_fake = netD(fake.detach())
    loss_D_fake = self.criterionGAN(pred_fake, False)
    loss_D = (loss_D_real + loss_D_fake) * 0.5
    loss_D.backward()
    return loss_D

Returns the loss together with the list of arguments passed to `netD`, in
call order and with their gradient tag. -/
def backward_D_basic {T S : Type} (criterionGAN : S → Bool → ℝ)
    (netD : GradTag T → S) (real fake : T) : ℝ × List (GradTag T) :=
  let pred_real := netD (GradTag.tracked real)
  let loss_D_real := criterionGAN pred_real true
  let pred_fake := netD (GradTag.detached fake)
  let loss_D_fake := criterionGAN pred_fake false
  let loss_D := (loss_D_real + loss_D_fake) * 0.5
  ⟨loss_D, [GradTag.tracked real, GradTag.detached fake]⟩

/-- Names of the two discriminators. -/
inductive DiscName where
  | D_A : DiscName
  | D_B : DiscName
deriving DecidableEq

/-- One application of `backward_D_basic` during an iteration: which
discriminator, the real batch, and the fake batch actually passed (already
routed through the image pool). -/
structure DCall (T : Type) where
  disc : DiscName
  real : T
  fake : T

/-- `CycleGANModel.backward_D_A` (lines 170-173):

    fake_B = self.fake_B_pool.query(self.fake_B)
    self.loss_D_A = self.backward_D_basic(self.netD_A, self.real_B, fake_B)

`fake_B_pool_query` is the (external, stateful) image-pool query, abstracted
as the function it applies this iteration. -/
def backward_D_A {T : Type} (fake_B_pool_query : T → T) (real_B fake_B : T) : DCall T :=
  ⟨DiscName.D_A, real_B, fake_B_pool_query fake_B⟩

/-- `CycleGANModel.backward_D_B` (lines 175-178):

    fake_A = self.fake_A_pool.query(self.fake_A)
    self.loss_D_B = self.backward_D_basic(self.netD_B, self.real_A, fake_A)
-/
def backward_D_B {T : Type} (fake_A_pool_query : T → T) (real_A fake_A : T) : DCall T :=
  ⟨DiscName.D_B, real_A, fake_A_pool_query fake_A⟩

/-- The discriminator-loss applications performed by one call of
`optimize_parameters` (lines 251-252): `backward_D_A()` then
`backward_D_B()`, and nothing else. -/
def optimize_parameters_D_calls {T : Type} (fake_B_pool_query fake_A_pool_query : T → T)
    (real_A real_B fake_A fake_B : T) : List (DCall T) :=
  [backward_D_A fake_B_pool_query real_B fake_B,
   backward_D_B fake_A_pool_query real_A fake_A]

/-- The fields of the input dict produced by the data loader that `set_input`
reads: the two image batches and the two reference difference maps.  (The
path entries are metadata and are not modelled.) -/
structure InputDict (T : Type) where
  A : T
  B : T
  A_ref : DiffBatch
  B_ref : DiffBatch

/-- The per-iteration model attributes that the embedded training step reads
and writes: the input tensors set by `set_input` (the reference difference
maps are `Option`s — a Python attribute that `set_input` may never have
assigned), and the parameter versions of the two optimizer groups. -/
structure MState (T : Type) where
  real_A : T
  real_B : T
  real_diff_A : Option DiffBatch
  real_diff_B : Option DiffBatch
  gVer : Nat
  dVer : Nat

/-- `CycleGANModel.set_input` (lines 117-139): two successive `if` tests on
`opt.dataset_type`; the `common_images` branch sets only `real_A`/`real_B`
(direction-swapped), the `remote_sensing_images` branch additionally sets
`real_diff_A`/`real_diff_B` — but only when `opt.phase == 'train'`. -/
def set_input {T : Type} (opt : Opt) (input : InputDict T) (m : MState T) : MState T :=
  let m1 :=
    if opt.dataset_type = "common_images" then
      let AtoB := opt.direction = "AtoB"
      { m with real_A := if AtoB then input.A else input.B
               real_B := if AtoB then input.B else input.A }
    else m
  if opt.dataset_type = "remote_sensing_images" then
    let AtoB := opt.direction = "AtoB"
    let m2 := { m1 with real_A := if AtoB then input.A else input.B
                        real_B := if AtoB then input.B else input.A }
    if opt.phase = "train" then
      { m2 with real_diff_A := some (if AtoB then input.A_ref else input.B_ref)
                real_diff_B := some (if AtoB then input.B_ref else input.A_ref) }
    else m2
  else m1

/-- The Python exception class aborting an iteration in the embedded model. -/
inductive PyError where
  | attributeError : PyError
deriving DecidableEq

/-- Result of one `optimize_parameters` call: the model state it left behind
and the exception that aborted it, if any. -/
structure RunOut (T : Type) where
  state : MState T
  error : Option PyError

/-- `CycleGANModel.optimize_parameters` (lines 239-253) at the data level:
runs `forward`, then `backward_G`, then steps `optimizer_G`, then the two
discriminator backward passes, then steps `optimizer_D`.  `backward_G`
dereferences `self.real_diff_A` / `self.real_diff_B` (line 214-215)
unconditionally; if `set_input` never assigned them, Python raises
`AttributeError` there — after `zero_grad` but before `optimizer_G.step()` —
and the remaining operations (both optimizer steps included) are aborted. -/
noncomputable def optimize_parameters {T S : Type} (opt : Opt) (nets : Nets T S)
    (m : MState T) : RunOut T :=
  let fwd := forward nets m.real_A m.real_B
  match m.real_diff_A, m.real_diff_B with
  | some rdA, some rdB =>
    let _g := backward_G opt nets m.real_A m.real_B rdA rdB fwd
    let m1 := { m with gVer := m.gVer + 1 }
    let m2 := { m1 with dVer := m1.dVer + 1 }
    ⟨m2, none⟩
  | _, _ => ⟨m, some PyError.attributeError⟩

/-- Concrete option object with the identity loss enabled through the target
weight, used to instantiate hypothesis-bearing theorems at a specific
configuration. -/
def wOptIdt : Opt :=
  ⟨10, 10, 1/2, 0, 1, 1, 3, 3, true, "remote_sensing_images", "AtoB", "train"⟩

/-- Concrete option object with both identity weights set to zero. -/
def wOptNoIdt : Opt :=
  ⟨10, 10, 0, 0, 1, 1, 3, 3, true, "remote_sensing_images", "AtoB", "train"⟩

/-- Concrete option object selecting the common-images dataset mode. -/
def wOptCommon : Opt :=
  ⟨10, 10, 1/2, 0, 1, 1, 3, 3, true, "common_images", "AtoB", "test"⟩

/-- Trivial networks over unit image tensors, used to instantiate theorems at
a concrete input. -/
noncomputable def wNets : Nets Unit Unit :=
  ⟨fun _ => ((), []), fun _ => ((), []), fun _ => (), fun _ => (),
   fun _ _ => 0, fun _ _ => 0, fun _ _ => 0⟩

/-- A forward-pass output over unit image tensors carrying prescribed
difference maps. -/
def wFwd (dA dB : DiffBatch) : FwdOut Unit := ⟨(), dA, (), (), dB, ()⟩

/-- The error torch raises on a failed broadcast (`RuntimeError: The size of
tensor a must match the size of tensor b at non-singleton dimension ...`). -/
inductive TorchError where
  | broadcastMismatch : TorchError
deriving DecidableEq

/-- A rank-4 tensor of shape `(N, C, H, W)` as nested lists, outermost the
batch axis — the layout of `real_diff_A` / `diff_A` in the source.  This is
the shape-faithful view used to settle the claims about the
difference-consistency term's values. -/
abbrev Tensor4 := List (List (List (List ℝ)))

/-- Entrywise scaling of a matrix by a scalar. -/
def scaleMat (c : ℝ) (m : List (List ℝ)) : List (List ℝ) :=
  m.map (fun row => row.map (fun x => c * x))

/-- Scaling of one `(C, H, W)` sample by a scalar (`c * tensor`), used to
state the "exactly parallel, positive magnitude" hypothesis. -/
def scaleSample4 (c : ℝ) (s : List (List (List ℝ))) : List (List (List ℝ)) :=
  s.map (scaleMat c)

/-- Entrywise square of a matrix. -/
def sqMat (m : List (List ℝ)) : List (List ℝ) :=
  m.map (fun row => row.map (fun x => x * x))

/-- Entrywise sum of two equal-shaped matrices. -/
def addMat (a b : List (List ℝ)) : List (List ℝ) :=
  List.zipWith (List.zipWith (fun x y => x + y)) a b

/-- Sum of the squares of the channel matrices of one `(C, H, W)` sample:
the `(H, W)` matrix of `Σ_c x[c,h,w]²`. -/
def sumSqOverC (s : List (List (List ℝ))) : List (List ℝ) :=
  match s with
  | [] => []
  | c0 :: rest => (rest.map sqMat).foldl addMat (sqMat c0)

/-- Entrywise square root of a matrix. -/
noncomputable def sqrtMat (m : List (List ℝ)) : List (List ℝ) :=
  m.map (fun row => row.map Real.sqrt)

/-- Per-sample scalar norm of one `(C, H, W)` sample:
`(torch.norm(x, dim=1)).mean(dim=(1,2))` — Euclidean norm over the channel
axis giving an `(H, W)` map, then the mean over both spatial axes. -/
noncomputable def sampleNorm4 (s : List (List (List ℝ))) : ℝ :=
  rmean (sqrtMat (sumSqOverC s)).flatten

/-- One `W`-row of the division `tensor / norms` at lines 220-223, where the
divisor is the `(N,)`-shaped vector of per-sample norms.  PyTorch broadcasts
right-aligned, so the length-`N` divisor is matched against the `W` axis:
* `N = 1`: the single norm divides every entry (per-sample semantics, correct
  precisely because there is exactly one sample);
* `W = N`: entry `x[n,c,h,w]` is divided by `d[w]` — the norm of sample `w`,
  not of sample `n`;
* `W = 1`: the row is stretched to length `N`;
* otherwise a broadcast `RuntimeError` is raised. -/
noncomputable def bcastDivRow (row : List ℝ) (d : List ℝ) : Except TorchError (List Fl) :=
  match d with
  | [v] => Except.ok (row.map (fun x => Fl.div (Fl.fin x) (Fl.fin v)))
  | _ =>
    if row.length = d.length then
      Except.ok (List.zipWith (fun x v => Fl.div (Fl.fin x) (Fl.fin v)) row d)
    else
      match row with
      | [x] => Except.ok (d.map (fun v => Fl.div (Fl.fin x) (Fl.fin v)))
      | _ => Except.error TorchError.broadcastMismatch

/-- Error-propagating map over a list: the first failing element aborts the
whole operation (as the tensor-level broadcast does). -/
def mapExcept {α β ε : Type} (f : α → Except ε β) : List α → Except ε (List β)
  | [] => Except.ok []
  | a :: t =>
    match f a, mapExcept f t with
    | Except.ok b, Except.ok bs => Except.ok (b :: bs)
    | Except.error e, _ => Except.error e
    | _, Except.error e => Except.error e

/-- The division `tensor / per_sample_norms` of lines 220-223 on the full
`(N, C, H, W)` tensor: `bcastDivRow` applied to every `W`-row. -/
noncomputable def bcastDivByNorms (x : Tensor4) (d : List ℝ) :
    Except TorchError (List (List (List (List Fl)))) :=
  mapExcept (fun s => mapExcept (fun ch => mapExcept (fun row => bcastDivRow row d) ch) s) x

/-- Entrywise square of a float-like matrix. -/
noncomputable def sqMatFl (m : List (List Fl)) : List (List Fl) :=
  m.map (fun row => row.map (fun x => Fl.mul x x))

/-- Entrywise sum of two equal-shaped float-like matrices. -/
def addMatFl (a b : List (List Fl)) : List (List Fl) :=
  List.zipWith (List.zipWith Fl.add) a b

/-- Sum of the squares of the channel matrices of one float-like sample. -/
noncomputable def sumSqOverC_Fl (s : List (List (List Fl))) : List (List Fl) :=
  match s with
  | [] => []
  | c0 :: rest => (rest.map sqMatFl).foldl addMatFl (sqMatFl c0)

/-- Entrywise square root of a float-like matrix. -/
noncomputable def sqrtMatFl (m : List (List Fl)) : List (List Fl) :=
  m.map (fun row => row.map Fl.sqrt)

/-- Entrywise difference of two equal-shaped rank-4 float-like tensors
(`diff_norm - real_diff_norm`; the operands of line 233 have equal shapes
whenever the generated and reference maps do). -/
def subT4 (a b : List (List (List (List Fl)))) : List (List (List (List Fl))) :=
  List.zipWith (List.zipWith (List.zipWith (List.zipWith Fl.sub))) a b

/-- Shape-faithful embedding of the difference-consistency term of
`backward_G` (lines 214-234), here for the A domain:

    self.real_diff_A_ = (torch.norm(self.real_diff_A, dim=1)).mean(dim=(1,2))
    self.diff_A_ = (torch.norm(self.diff_A, dim=1)).mean(dim=(1,2))
    self.real_diff_A_norm = self.real_diff_A / self.real_diff_A_   # line 220
    self.diff_A_norm = self.diff_A / self.diff_A_                  # line 222
    self.loss_diff_A =
      (torch.norm(self.diff_A_norm - self.real_diff_A_norm, dim=1)).mean()
      * lambda_A * lambda_diff_s

The two divisions broadcast the `(N,)` norm vectors right-aligned against
the `W` axis (`bcastDivRow`); the reference division at line 220 runs first,
so a broadcast failure there is the error that surfaces.  The final mean
runs over all `N·H·W` channel norms of the difference. -/
noncomputable def bcast_diff_consistency_loss (gen ref : Tensor4) (lam lamDiff : ℚ) :
    Except TorchError Fl :=
  Except.bind (bcastDivByNorms ref (ref.map sampleNorm4)) (fun ref_norm =>
    Except.map (fun gen_norm =>
        Fl.mul
          (Fl.mul
            (flMean (((subT4 gen_norm ref_norm).map
              (fun s => (sqrtMatFl (sumSqOverC_Fl s)).flatten)).flatten))
            (Fl.fin (lam : ℝ)))
          (Fl.fin (lamDiff : ℝ)))
      (bcastDivByNorms gen (gen.map sampleNorm4)))

/-- An `H × W` rectangular matrix. -/
def Rect2 {α : Type} (H W : Nat) (m : List (List α)) : Prop :=
  m.length = H ∧ ∀ row ∈ m, row.length = W

/-- A `C × H × W` rectangular sample (the shape of a real tensor slice). -/
def Rect3 {α : Type} (C H W : Nat) (s : List (List (List α))) : Prop :=
  s.length = C ∧ ∀ ch ∈ s, Rect2 H W ch

theorem Fl.add_nonfin_left (y : Fl) : Fl.add Fl.nonfin y = Fl.nonfin := by
  cases y <;> rfl

theorem Fl.add_nonfin_right (x : Fl) : Fl.add x Fl.nonfin = Fl.nonfin := by
  cases x <;> rfl

theorem Fl.sub_nonfin_left (y : Fl) : Fl.sub Fl.nonfin y = Fl.nonfin := by
  cases y <;> rfl

theorem Fl.sub_nonfin_right (x : Fl) : Fl.sub x Fl.nonfin = Fl.nonfin := by
  cases x <;> rfl

theorem Fl.mul_nonfin_left (y : Fl) : Fl.mul Fl.nonfin y = Fl.nonfin := by
  cases y <;> rfl

theorem Fl.div_zero_den (x : Fl) : Fl.div x (Fl.fin 0) = Fl.nonfin := by
  cases x <;> simp [Fl.div]

theorem Fl.div_fin_fin (a b : ℝ) (hb : b ≠ 0) :
    Fl.div (Fl.fin a) (Fl.fin b) = Fl.fin (a / b) := by
  simp [Fl.div, hb]

theorem Fl.div_nonfin_left (y : Fl) : Fl.div Fl.nonfin y = Fl.nonfin := by
  cases y <;> rfl

theorem flSum_fin_zero (l : List Fl) (h : ∀ x ∈ l, x = Fl.fin 0) :
    flSum l = Fl.fin 0 := by
  induction l with
  | nil => rfl
  | cons a t ih =>
    have ha : a = Fl.fin 0 := h a (by simp)
    have ht : flSum t = Fl.fin 0 := ih (fun x hx => h x (by simp [hx]))
    simp [flSum, List.foldr_cons] at ht ⊢
    rw [ha, ht]
    simp [Fl.add]

theorem flSum_nonfin (l : List Fl) (h : Fl.nonfin ∈ l) : flSum l = Fl.nonfin := by
  induction l with
  | nil => simp at h
  | cons a t ih =>
    rcases List.mem_cons.mp h with h1 | h2
    · simp [flSum, ← h1, Fl.add_nonfin_left]
    · simp [flSum] at ih ⊢
      rw [ih h2, Fl.add_nonfin_right]

theorem flMean_fin_zero (l : List Fl) (hne : l ≠ []) (h : ∀ x ∈ l, x = Fl.fin 0) :
    flMean l = Fl.fin 0 := by
  have hlen : (l.length : ℝ) ≠ 0 := by
    simpa using List.length_pos.mpr hne |>.ne'
  rw [flMean, flSum_fin_zero l h, Fl.div_fin_fin _ _ hlen]
  simp

theorem flMean_nonfin (l : List Fl) (h : Fl.nonfin ∈ l) : flMean l = Fl.nonfin := by
  rw [flMean, flSum_nonfin l h, Fl.div_nonfin_left]

theorem rmean_scale (c : ℝ) (l : List ℝ) :
    rmean (l.map (fun x => c * x)) = c * rmean l := by
  rw [rmean, rmean, List.length_map]
  have hs : (l.map (fun x => c * x)).sum = c * l.sum := by
    induction l with
    | nil => simp
    | cons a t ih => simp [ih]; ring
  rw [hs, mul_div_assoc]

/-- C1 (counterexample): `optimize_parameters` is not atomic with respect to
model state.  An exception raised during `backward_D_A()` (operation index 7,
after `optimizer_G.step()` at index 4) leaves the generator parameters
updated once and the discriminator parameters not updated — neither "all
four parameter groups updated" nor "all parameters as they were". -/
theorem optimize_parameters_not_atomic_at_backward_D_A :
    ¬ (runWithFailureAt 7 = ⟨1, 1⟩ ∨ runWithFailureAt 7 = ⟨0, 0⟩) := by decide

/-- C1 (amended): per failure point, the states an iteration can leave are:
an exception before `optimizer_G.step()` (operation index ≤ 4) leaves all
parameters as they were; an exception after the generator step but before
`optimizer_D.step()` (indices 5-9, i.e. during Phase D) leaves the
generators updated once and the discriminators unchanged; a completed
iteration (no exception before index 10) updates all four parameter groups
exactly once.  In particular the discriminators are never updated without
the generators. -/
theorem optimize_parameters_failure_state_characterization (k : Nat) :
    (k ≤ 4 → runWithFailureAt k = ⟨0, 0⟩) ∧
    (5 ≤ k → k ≤ 9 → runWithFailureAt k = ⟨1, 0⟩) ∧
    (10 ≤ k → runWithFailureAt k = ⟨1, 1⟩) := by
  refine ⟨fun h => ?_, fun h1 h2 => ?_, fun h => ?_⟩
  · interval_cases k <;> decide
  · interval_cases k <;> decide
  · have hlen : optimize_parameters_steps.length ≤ k := by
      have h10 : optimize_parameters_steps.length = 10 := rfl
      omega
    unfold runWithFailureAt
    rw [List.take_of_length_le hlen]
    decide

/-- C1 (witness): a failure while computing the D_A gradients (index 7)
satisfies the Phase-D hypotheses and leaves the mixed state `⟨1, 0⟩`. -/
theorem optimize_parameters_failure_state_witness :
    (5 ≤ 7 ∧ 7 ≤ 9) ∧ runWithFailureAt 7 = ⟨1, 0⟩ :=
  ⟨⟨by decide, by decide⟩,
    (optimize_parameters_failure_state_characterization 7).2.1 (by decide) (by decide)⟩

/-- C2 (counterexample): the operation sequence of `optimize_parameters` is
not the order stated by the spec — the code runs the forward pass first,
before disabling gradient tracking on the discriminators, not after zeroing
the generator gradients. -/
theorem optimize_parameters_order_ne_spec_order :
    optimize_parameters_steps ≠ spec_phase_order := by decide

/-- C2 (amended): the operations of `optimize_parameters` occur in the
spec's stated order except that the forward pass is executed first, before
Phase G disables discriminator gradient tracking (instead of after zeroing
the generator optimizer's gradients); every other operation keeps the
spec's relative order. -/
theorem optimize_parameters_order_forward_first :
    optimize_parameters_steps =
      Step.forwardPass :: spec_phase_order.erase Step.forwardPass := by decide

/-- C3 (counterexample): with `lambda_identity_t = 0`, `lambda_identity_s = 1`
(identity loss enabled through the source term), `input_nc = 14 ≠ 3 =
output_nc` and `isTrain`, the `__init__` assertion does not fire:
construction succeeds even though the identity loss is enabled and the
channel counts differ. -/
theorem init_check_passes_with_source_identity_only :
    (0 < (⟨10, 10, 0, 1, 1, 1, 14, 3, true, "remote_sensing_images", "AtoB", "train"⟩ :
        Opt).lambda_identity_s
      ∧ (⟨10, 10, 0, 1, 1, 1, 14, 3, true, "remote_sensing_images", "AtoB", "train"⟩ :
        Opt).input_nc ≠
        (⟨10, 10, 0, 1, 1, 1, 14, 3, true, "remote_sensing_images", "AtoB", "train"⟩ :
        Opt).output_nc
      ∧ (⟨10, 10, 0, 1, 1, 1, 14, 3, true, "remote_sensing_images", "AtoB", "train"⟩ :
        Opt).isTrain = true)
    ∧ init_identity_check
        ⟨10, 10, 0, 1, 1, 1, 14, 3, true, "remote_sensing_images", "AtoB", "train"⟩ = true := by
  decide

/-- C3 (amended): model construction fails (the `__init__` assertion fires)
exactly when training mode is on, `lambda_identity_t > 0`, and the input and
output channel counts differ.  Enabling the identity loss through
`lambda_identity_s` alone does not trigger the fail-fast check, so that
configuration constructs successfully and a channel mismatch would surface
only mid-training. -/
theorem init_identity_check_fails_iff (opt : Opt) :
    init_identity_check opt = false ↔
      (opt.isTrain = true ∧ 0 < opt.lambda_identity_t ∧ opt.input_nc ≠ opt.output_nc) := by
  rw [init_identity_check]
  split_ifs with h1 h2 <;> simp_all

/-- C4: for every discriminator, real batch and fake batch,
`backward_D_basic` computes and back-propagates
`0.5 * (adversarial_loss(D(real), real_label) +
adversarial_loss(D(detach(fake)), fake_label))`, passing the fake batch to
the discriminator gradient-detached (and the real batch attached); and per
iteration this is applied exactly twice — D_A against `real_B` with the
pool-buffered `fake_B`, then D_B against `real_A` with the pool-buffered
`fake_A`. -/
theorem backward_D_basic_spec {T S : Type} (criterionGAN : S → Bool → ℝ)
    (netD : GradTag T → S) (real fake : T)
    (fake_B_pool_query fake_A_pool_query : T → T) (real_A real_B fake_A fake_B : T) :
    (backward_D_basic criterionGAN netD real fake).1 =
      0.5 * (criterionGAN (netD (GradTag.tracked real)) true
        + criterionGAN (netD (GradTag.detached fake)) false)
    ∧ (backward_D_basic criterionGAN netD real fake).2 =
      [GradTag.tracked real, GradTag.detached fake]
    ∧ optimize_parameters_D_calls fake_B_pool_query fake_A_pool_query
        real_A real_B fake_A fake_B =
      [⟨DiscName.D_A, real_B, fake_B_pool_query fake_B⟩,
       ⟨DiscName.D_B, real_A, fake_A_pool_query fake_A⟩] := by
  refine ⟨?_, rfl, rfl⟩
  show (criterionGAN (netD (GradTag.tracked real)) true
    + criterionGAN (netD (GradTag.detached fake)) false) * 0.5 = _
  ring

/-- C5: in every call of `backward_G`, the combined generator loss is the sum
of exactly the eight terms `loss_G_A`, `loss_G_B`, `loss_cycle_A`,
`loss_cycle_B`, `loss_idt_A`, `loss_idt_B`, `loss_diff_A`, `loss_diff_B`
(in source order), and exactly one back-propagation call is issued, over
that sum. -/
theorem backward_G_total_loss_sum {T S : Type} (opt : Opt) (nets : Nets T S)
    (real_A real_B : T) (real_diff_A real_diff_B : DiffBatch) (fwd : FwdOut T) :
    (backward_G opt nets real_A real_B real_diff_A real_diff_B fwd).loss_G =
      Fl.fin (backward_G opt nets real_A real_B real_diff_A real_diff_B fwd).loss_G_A
        + Fl.fin (backward_G opt nets real_A real_B real_diff_A real_diff_B fwd).loss_G_B
        + Fl.fin (backward_G opt nets real_A real_B real_diff_A real_diff_B fwd).loss_cycle_A
        + Fl.fin (backward_G opt nets real_A real_B real_diff_A real_diff_B fwd).loss_cycle_B
        + Fl.fin (backward_G opt nets real_A real_B real_diff_A real_diff_B fwd).loss_idt_A
        + Fl.fin (backward_G opt nets real_A real_B real_diff_A real_diff_B fwd).loss_idt_B
        + (backward_G opt nets real_A real_B real_diff_A real_diff_B fwd).loss_diff_A
        + (backward_G opt nets real_A real_B real_diff_A real_diff_B fwd).loss_diff_B
    ∧ (backward_G opt nets real_A real_B real_diff_A real_diff_B fwd).backward_calls =
      [(backward_G opt nets real_A real_B real_diff_A real_diff_B fwd).loss_G] :=
  ⟨rfl, rfl⟩

/-- C6: whenever the identity loss is enabled (`lambda_identity_t > 0` or
`lambda_identity_s > 0`), `backward_G` computes
`loss_idt_A = L1(G_A(real_B), real_B) * lambda_B * lambda_identity_t
  + L1(G_A(real_A), real_A) * lambda_A * lambda_identity_s` and
`loss_idt_B = L1(G_B(real_A), real_A) * lambda_A * lambda_identity_t
  + L1(G_B(real_B), real_B) * lambda_B * lambda_identity_s` —
each target-identity term weighted by the opposite domain's lambda, each
source-identity term by its own domain's lambda. -/
theorem backward_G_identity_loss_formula {T S : Type} (opt : Opt) (nets : Nets T S)
    (real_A real_B : T) (real_diff_A real_diff_B : DiffBatch) (fwd : FwdOut T)
    (h : 0 < opt.lambda_identity_t ∨ 0 < opt.lambda_identity_s) :
    (backward_G opt nets real_A real_B real_diff_A real_diff_B fwd).loss_idt_A =
      nets.criterionIdt (nets.netG_A real_B).1 real_B
          * (opt.lambda_B : ℝ) * (opt.lambda_identity_t : ℝ)
        + nets.criterionIdt (nets.netG_A real_A).1 real_A
          * (opt.lambda_A : ℝ) * (opt.lambda_identity_s : ℝ)
    ∧ (backward_G opt nets real_A real_B real_diff_A real_diff_B fwd).loss_idt_B =
      nets.criterionIdt (nets.netG_B real_A).1 real_A
          * (opt.lambda_A : ℝ) * (opt.lambda_identity_t : ℝ)
        + nets.criterionIdt (nets.netG_B real_B).1 real_B
          * (opt.lambda_B : ℝ) * (opt.lambda_identity_s : ℝ) := by
  simp only [backward_G]
  rw [if_pos h]
  exact ⟨rfl, rfl⟩

/-- C6 (witness): the formula instantiated at `wOptIdt` (identity weight
1/2 > 0) and the trivial unit networks. -/
theorem backward_G_identity_loss_formula_witness :
    (0 < wOptIdt.lambda_identity_t ∨ 0 < wOptIdt.lambda_identity_s) ∧
    ((backward_G wOptIdt wNets () () [] [] (wFwd [] [])).loss_idt_A =
      wNets.criterionIdt (wNets.netG_A ()).1 ()
          * (wOptIdt.lambda_B : ℝ) * (wOptIdt.lambda_identity_t : ℝ)
        + wNets.criterionIdt (wNets.netG_A ()).1 ()
          * (wOptIdt.lambda_A : ℝ) * (wOptIdt.lambda_identity_s : ℝ)
    ∧ (backward_G wOptIdt wNets () () [] [] (wFwd [] [])).loss_idt_B =
      wNets.criterionIdt (wNets.netG_B ()).1 ()
          * (wOptIdt.lambda_A : ℝ) * (wOptIdt.lambda_identity_t : ℝ)
        + wNets.criterionIdt (wNets.netG_B ()).1 ()
          * (wOptIdt.lambda_B : ℝ) * (wOptIdt.lambda_identity_s : ℝ)) :=
  ⟨Or.inl (by norm_num [wOptIdt]),
   backward_G_identity_loss_formula wOptIdt wNets () () [] [] (wFwd [] [])
     (Or.inl (by norm_num [wOptIdt]))⟩

/-- C8: with `lambda_identity_t = 0` and `lambda_identity_s = 0`,
`backward_G` sets `loss_idt_A` and `loss_idt_B` to exactly zero, computes
none of the identity tensors `idt_A`, `idt_B`, `idt_A_s`, `idt_B_s`, and
performs no identity-branch generator evaluation. -/
theorem backward_G_identity_disabled_lazy {T S : Type} (opt : Opt) (nets : Nets T S)
    (real_A real_B : T) (real_diff_A real_diff_B : DiffBatch) (fwd : FwdOut T)
    (ht : opt.lambda_identity_t = 0) (hs : opt.lambda_identity_s = 0) :
    (backward_G opt nets real_A real_B real_diff_A real_diff_B fwd).loss_idt_A = 0
    ∧ (backward_G opt nets real_A real_B real_diff_A real_diff_B fwd).loss_idt_B = 0
    ∧ (backward_G opt nets real_A real_B real_diff_A real_diff_B fwd).idt_A = none
    ∧ (backward_G opt nets real_A real_B real_diff_A real_diff_B fwd).idt_B = none
    ∧ (backward_G opt nets real_A real_B real_diff_A real_diff_B fwd).idt_A_s = none
    ∧ (backward_G opt nets real_A real_B real_diff_A real_diff_B fwd).idt_B_s = none
    ∧ (backward_G opt nets real_A real_B real_diff_A real_diff_B fwd).gen_calls = [] := by
  have hcond : ¬ (0 < opt.lambda_identity_t ∨ 0 < opt.lambda_identity_s) := by
    rw [ht, hs]
    simp
  simp only [backward_G]
  rw [if_neg hcond]
  exact ⟨rfl, rfl, rfl, rfl, rfl, rfl, rfl⟩

/-- C8 (witness): the laziness property instantiated at `wOptNoIdt` (both
identity weights zero) and the trivial unit networks. -/
theorem backward_G_identity_disabled_lazy_witness :
    (wOptNoIdt.lambda_identity_t = 0 ∧ wOptNoIdt.lambda_identity_s = 0) ∧
    ((backward_G wOptNoIdt wNets () () [] [] (wFwd [] [])).loss_idt_A = 0
    ∧ (backward_G wOptNoIdt wNets () () [] [] (wFwd [] [])).loss_idt_B = 0
    ∧ (backward_G wOptNoIdt wNets () () [] [] (wFwd [] [])).idt_A = none
    ∧ (backward_G wOptNoIdt wNets () () [] [] (wFwd [] [])).idt_B = none
    ∧ (backward_G wOptNoIdt wNets () () [] [] (wFwd [] [])).idt_A_s = none
    ∧ (backward_G wOptNoIdt wNets () () [] [] (wFwd [] [])).idt_B_s = none
    ∧ (backward_G wOptNoIdt wNets () () [] [] (wFwd [] [])).gen_calls = []) :=
  ⟨⟨by decide, by decide⟩,
   backward_G_identity_disabled_lazy wOptNoIdt wNets () () [] [] (wFwd [] [])
     (by decide) (by decide)⟩

/-- C10: `backward_G` reads `self.real_diff_A` / `self.real_diff_B`
unconditionally, but `set_input` populates them only in the
remote-sensing-images mode during the training phase.  Hence on a fresh
model, after `set_input` with the common-images dataset type (or with the
remote-sensing type outside the training phase), `optimize_parameters`
raises an undefined-attribute error inside `backward_G` — before any
optimizer step has run, leaving both parameter versions unchanged — instead
of skipping the difference-consistency term. -/
theorem optimize_parameters_attribute_error_without_ref_diffs {T S : Type}
    (opt : Opt) (nets : Nets T S) (input : InputDict T) (m : MState T)
    (hA : m.real_diff_A = none) (hB : m.real_diff_B = none)
    (hds : opt.dataset_type = "common_images" ∨
      (opt.dataset_type = "remote_sensing_images" ∧ opt.phase ≠ "train")) :
    (optimize_parameters opt nets (set_input opt input m)).error =
      some PyError.attributeError
    ∧ (optimize_parameters opt nets (set_input opt input m)).state.gVer = m.gVer
    ∧ (optimize_parameters opt nets (set_input opt input m)).state.dVer = m.dVer := by
  have hdiffs : (set_input opt input m).real_diff_A = none
      ∧ (set_input opt input m).real_diff_B = none
      ∧ (set_input opt input m).gVer = m.gVer
      ∧ (set_input opt input m).dVer = m.dVer := by
    rcases hds with h | ⟨h1, h2⟩
    · have hne : ¬ (opt.dataset_type = "remote_sensing_images") := by
        rw [h]
        decide
      simp [set_input, h, hne, hA, hB]
    · simp [set_input, h1, h2, hA, hB]
  rcases hdiffs with ⟨h1, h2, h3, h4⟩
  rw [optimize_parameters]
  rw [h1, h2]
  exact ⟨rfl, h3, h4⟩

/-- C10 (witness): a fresh model state, the common-images dataset mode, unit
networks: `optimize_parameters` after `set_input` reports the attribute
error and both parameter versions stay 0. -/
theorem optimize_parameters_attribute_error_witness :
    wOptCommon.dataset_type = "common_images"
    ∧ (optimize_parameters wOptCommon wNets
        (set_input wOptCommon ⟨(), (), [], []⟩
          (⟨(), (), none, none, 0, 0⟩ : MState Unit))).error = some PyError.attributeError
    ∧ (optimize_parameters wOptCommon wNets
        (set_input wOptCommon ⟨(), (), [], []⟩
          (⟨(), (), none, none, 0, 0⟩ : MState Unit))).state.gVer = 0
    ∧ (optimize_parameters wOptCommon wNets
        (set_input wOptCommon ⟨(), (), [], []⟩
          (⟨(), (), none, none, 0, 0⟩ : MState Unit))).state.dVer = 0 := by
  have hmain := optimize_parameters_attribute_error_without_ref_diffs wOptCommon wNets
    (⟨(), (), [], []⟩ : InputDict Unit) (⟨(), (), none, none, 0, 0⟩ : MState Unit)
    rfl rfl (Or.inl rfl)
  exact ⟨rfl, hmain.1, hmain.2.1, hmain.2.2⟩

theorem exceptBind_ok {α β ε : Type} (x : α) (f : α → Except ε β) :
    Except.bind (Except.ok x) f = f x := rfl

theorem exceptMap_ok {α β ε : Type} (f : α → β) (x : α) :
    Except.map f (Except.ok x : Except ε α) = Except.ok (f x) := rfl

theorem mapExcept_ok {α β ε : Type} (f : α → β) (l : List α) :
    mapExcept (fun a => (Except.ok (f a) : Except ε β)) l = Except.ok (l.map f) := by
  induction l with
  | nil => rfl
  | cons a t ih => simp [mapExcept, ih]

theorem bcastDivRow_singleton (row : List ℝ) (v : ℝ) :
    bcastDivRow row [v] = Except.ok (row.map (fun x => Fl.div (Fl.fin x) (Fl.fin v))) := rfl

theorem bcastDivByNorms_singleton (x : Tensor4) (v : ℝ) :
    bcastDivByNorms x [v] = Except.ok (x.map (fun s => s.map (fun ch => ch.map (fun row =>
      row.map (fun e => Fl.div (Fl.fin e) (Fl.fin v)))))) := by
  simp only [bcastDivByNorms, bcastDivRow_singleton, mapExcept_ok]

theorem zipWith_replicate_right {α β γ : Type} (f : α → β → γ) (x : List α) (n : Nat)
    (b : β) (h : x.length = n) :
    List.zipWith f x (List.replicate n b) = x.map (fun a => f a b) := by
  induction x generalizing n with
  | nil => simp
  | cons a t ih =>
    cases n with
    | zero => simp at h
    | succ m =>
      simp only [List.replicate_succ, List.zipWith_cons_cons, List.map_cons]
      rw [ih m (by simpa using h)]

theorem zipWith_replicate_left {α β γ : Type} (f : α → β → γ) (n : Nat) (a : α)
    (x : List β) (h : x.length = n) :
    List.zipWith f (List.replicate n a) x = x.map (fun b => f a b) := by
  induction x generalizing n with
  | nil => simp
  | cons b t ih =>
    cases n with
    | zero => simp at h
    | succ m =>
      simp only [List.replicate_succ, List.zipWith_cons_cons, List.map_cons]
      rw [ih m (by simpa using h)]

theorem zipWith_replicate_both {α β γ : Type} (f : α → β → γ) (n : Nat) (a : α) (b : β) :
    List.zipWith f (List.replicate n a) (List.replicate n b) = List.replicate n (f a b) := by
  induction n with
  | zero => rfl
  | succ m ih => simp [List.replicate_succ, ih]

theorem foldl_addMatFl_const (z : List (List Fl)) (hz : addMatFl z z = z) (n : Nat) :
    (List.replicate n z).foldl addMatFl z = z := by
  induction n with
  | zero => rfl
  | succ m ih => simp [List.replicate_succ, List.foldl_cons, hz, ih]

theorem flatten_replicate {α : Type} (n m : Nat) (a : α) :
    (List.replicate n (List.replicate m a)).flatten = List.replicate (n * m) a := by
  induction n with
  | zero => simp
  | succ k ih =>
    simp only [List.replicate_succ, List.flatten_cons, ih]
    rw [← List.replicate_add]
    congr 1
    ring

theorem map_const_of_rect3 {α β : Type} (C H W : Nat) (s : List (List (List α)))
    (hs : Rect3 C H W s) (k : β) :
    s.map (fun ch => ch.map (fun row => row.map (fun _ => k))) =
      List.replicate C (List.replicate H (List.replicate W k)) := by
  obtain ⟨hC, hch⟩ := hs
  have hstep : ∀ ch ∈ s, ch.map (fun row => row.map (fun _ => k)) =
      List.replicate H (List.replicate W k) := by
    intro ch hmem
    obtain ⟨hH, hrow⟩ := hch ch hmem
    have hstep2 : ∀ row ∈ ch, row.map (fun _ => k) = List.replicate W k := by
      intro row hr
      rw [List.map_const', hrow row hr]
    rw [List.map_congr_left hstep2, List.map_const', hH]
  rw [List.map_congr_left hstep, List.map_const', hC]

theorem Rect3_map {α β : Type} (C H W : Nat) (s : List (List (List α)))
    (hs : Rect3 C H W s) (f : α → β) :
    Rect3 C H W (s.map (fun ch => ch.map (fun row => row.map f))) := by
  obtain ⟨hC, hch⟩ := hs
  refine ⟨by simpa using hC, ?_⟩
  intro ch hmem
  rw [List.mem_map] at hmem
  obtain ⟨ch0, hch0, rfl⟩ := hmem
  obtain ⟨hH, hrow⟩ := hch ch0 hch0
  refine ⟨by simpa using hH, ?_⟩
  intro row hr
  rw [List.mem_map] at hr
  obtain ⟨row0, hr0, rfl⟩ := hr
  simpa using hrow row0 hr0

theorem canonical_pipeline (C H W : Nat) (hC : 0 < C) (z : Fl)
    (hmul : Fl.mul z z = z) (hadd : Fl.add z z = z) (hsqrt : Fl.sqrt z = z) :
    (sqrtMatFl (sumSqOverC_Fl
        (List.replicate C (List.replicate H (List.replicate W z))))).flatten =
      List.replicate (H * W) z := by
  have hsq : sqMatFl (List.replicate H (List.replicate W z)) =
      List.replicate H (List.replicate W z) := by
    simp only [sqMatFl, List.map_replicate, hmul]
  have haddc : addMatFl (List.replicate H (List.replicate W z))
      (List.replicate H (List.replicate W z)) = List.replicate H (List.replicate W z) := by
    simp only [addMatFl, zipWith_replicate_both, hadd]
  have hsqrtc : sqrtMatFl (List.replicate H (List.replicate W z)) =
      List.replicate H (List.replicate W z) := by
    simp only [sqrtMatFl, List.map_replicate, hsqrt]
  obtain ⟨Cp, rfl⟩ : ∃ Cp, C = Cp + 1 := ⟨C - 1, by omega⟩
  rw [List.replicate_succ]
  simp only [sumSqOverC_Fl, List.map_replicate, hsq, foldl_addMatFl_const _ haddc, hsqrtc,
    flatten_replicate]

theorem sqMat_scaleMat (c : ℝ) (m : List (List ℝ)) :
    sqMat (scaleMat c m) = scaleMat (c ^ 2) (sqMat m) := by
  simp only [sqMat, scaleMat, List.map_map]
  apply List.map_congr_left
  intro row _
  simp only [Function.comp, List.map_map]
  apply List.map_congr_left
  intro x _
  simp only [Function.comp_apply]
  ring

theorem zipAddRow_scale (k : ℝ) (ra : List ℝ) : ∀ (rb : List ℝ),
    List.zipWith (fun x y => x + y) (ra.map (fun x => k * x)) (rb.map (fun x => k * x)) =
      (List.zipWith (fun x y => x + y) ra rb).map (fun x => k * x) := by
  induction ra with
  | nil => intro rb; simp
  | cons x xs ih =>
    intro rb
    cases rb with
    | nil => simp
    | cons y ys =>
      simp only [List.map_cons, List.zipWith_cons_cons, ih]
      congr 1
      ring

theorem addMat_scaleMat (k : ℝ) (a : List (List ℝ)) : ∀ (b : List (List ℝ)),
    addMat (scaleMat k a) (scaleMat k b) = scaleMat k (addMat a b) := by
  induction a with
  | nil => intro b; rfl
  | cons ra as ih =>
    intro b
    cases b with
    | nil => rfl
    | cons rb bs =>
      simp only [scaleMat, List.map_cons, addMat, List.zipWith_cons_cons]
      exact congrArg₂ List.cons (zipAddRow_scale k ra rb)
        (by simpa [scaleMat, addMat] using ih bs)

theorem foldl_addMat_scale (k : ℝ) (ms : List (List (List ℝ))) :
    ∀ (acc : List (List ℝ)),
      (ms.map (scaleMat k)).foldl addMat (scaleMat k acc) = scaleMat k (ms.foldl addMat acc) := by
  induction ms with
  | nil => intro acc; rfl
  | cons m t ih =>
    intro acc
    simp only [List.map_cons, List.foldl_cons]
    rw [addMat_scaleMat, ih]

theorem sumSqOverC_scale (c : ℝ) (s : List (List (List ℝ))) :
    sumSqOverC (scaleSample4 c s) = scaleMat (c ^ 2) (sumSqOverC s) := by
  cases s with
  | nil => rfl
  | cons c0 rest =>
    simp only [scaleSample4, List.map_cons, sumSqOverC]
    rw [sqMat_scaleMat]
    have hrest : ((rest.map (scaleMat c)).map sqMat) = (rest.map sqMat).map (scaleMat (c ^ 2)) := by
      simp only [List.map_map]
      apply List.map_congr_left
      intro m _
      simp only [Function.comp]
      exact sqMat_scaleMat c m
    rw [hrest, foldl_addMat_scale]

theorem sqrtMat_scaleMat (c : ℝ) (hc : 0 ≤ c) (m : List (List ℝ)) :
    sqrtMat (scaleMat (c ^ 2) m) = scaleMat c (sqrtMat m) := by
  simp only [sqrtMat, scaleMat, List.map_map]
  apply List.map_congr_left
  intro row _
  simp only [Function.comp, List.map_map]
  apply List.map_congr_left
  intro x _
  simp only [Function.comp_apply]
  rw [Real.sqrt_mul (sq_nonneg c) x, Real.sqrt_sq hc]

theorem flatten_scaleMat (c : ℝ) (m : List (List ℝ)) :
    (scaleMat c m).flatten = m.flatten.map (fun x => c * x) := by
  induction m with
  | nil => rfl
  | cons row t ih => simp [scaleMat, ih]

theorem sampleNorm4_scale (c : ℝ) (hc : 0 ≤ c) (s : List (List (List ℝ))) :
    sampleNorm4 (scaleSample4 c s) = c * sampleNorm4 s := by
  rw [sampleNorm4, sampleNorm4, sumSqOverC_scale, sqrtMat_scaleMat c hc, flatten_scaleMat,
    rmean_scale]

theorem zip3_sub_nonfin_right (C H W : Nat) (Y : List (List (List Fl)))
    (hY : Rect3 C H W Y) :
    List.zipWith (List.zipWith (List.zipWith Fl.sub)) Y
        (List.replicate C (List.replicate H (List.replicate W Fl.nonfin))) =
      List.replicate C (List.replicate H (List.replicate W Fl.nonfin)) := by
  obtain ⟨hC, hch⟩ := hY
  rw [zipWith_replicate_right _ Y C _ hC]
  have hstep : ∀ ch ∈ Y, List.zipWith (List.zipWith Fl.sub) ch
      (List.replicate H (List.replicate W Fl.nonfin)) =
      List.replicate H (List.replicate W Fl.nonfin) := by
    intro ch hm
    obtain ⟨hH, hrow⟩ := hch ch hm
    rw [zipWith_replicate_right _ ch H _ hH]
    have hstep2 : ∀ row ∈ ch, List.zipWith Fl.sub row (List.replicate W Fl.nonfin) =
        List.replicate W Fl.nonfin := by
      intro row hr
      rw [zipWith_replicate_right _ row W _ (hrow row hr)]
      simp only [Fl.sub_nonfin_right]
      rw [List.map_const', hrow row hr]
    rw [List.map_congr_left hstep2, List.map_const', hH]
  rw [List.map_congr_left hstep, List.map_const', hC]

theorem zip3_sub_nonfin_left (C H W : Nat) (Y : List (List (List Fl)))
    (hY : Rect3 C H W Y) :
    List.zipWith (List.zipWith (List.zipWith Fl.sub))
        (List.replicate C (List.replicate H (List.replicate W Fl.nonfin))) Y =
      List.replicate C (List.replicate H (List.replicate W Fl.nonfin)) := by
  obtain ⟨hC, hch⟩ := hY
  rw [zipWith_replicate_left _ C _ Y hC]
  have hstep : ∀ ch ∈ Y, List.zipWith (List.zipWith Fl.sub)
      (List.replicate H (List.replicate W Fl.nonfin)) ch =
      List.replicate H (List.replicate W Fl.nonfin) := by
    intro ch hm
    obtain ⟨hH, hrow⟩ := hch ch hm
    rw [zipWith_replicate_left _ H _ ch hH]
    have hstep2 : ∀ row ∈ ch, List.zipWith Fl.sub (List.replicate W Fl.nonfin) row =
        List.replicate W Fl.nonfin := by
      intro row hr
      rw [zipWith_replicate_left _ W _ row (hrow row hr)]
      simp only [Fl.sub_nonfin_left]
      rw [List.map_const', hrow row hr]
    rw [List.map_congr_left hstep2, List.map_const', hH]
  rw [List.map_congr_left hstep, List.map_const', hC]

/-- C7 (counterexample): a batch of two samples, each of shape `(1, 1, 3)`
and each generated sample exactly `2 ×` the reference sample (parallel,
positive magnitude, positive norms).  The `(2,)`-shaped vector of per-sample
norms broadcasts right-aligned against the `W = 3` axis, so the
normalization at lines 220-223 raises a broadcast `RuntimeError`: the
difference-consistency loss is not zero for this batch — it is never
computed. -/
theorem bcast_diff_loss_parallel_batch2_error :
    ((0 : ℝ) < 2
      ∧ scaleSample4 2 [[[(1 : ℝ), 1, 1]]] = [[[(2 : ℝ), 2, 2]]]
      ∧ 0 < sampleNorm4 [[[(1 : ℝ), 1, 1]]])
    ∧ bcast_diff_consistency_loss
        [[[[(2 : ℝ), 2, 2]]], [[[(2 : ℝ), 2, 2]]]]
        [[[[(1 : ℝ), 1, 1]]], [[[(1 : ℝ), 1, 1]]]] 10 1 =
      Except.error TorchError.broadcastMismatch := by
  refine ⟨⟨by norm_num, ?_, ?_⟩, rfl⟩
  · norm_num [scaleSample4, scaleMat]
  · simp only [sampleNorm4, sumSqOverC, sqMat, sqrtMat, rmean]
    norm_num

/-- C7 (amended): for single-sample batches — the only case in which
dividing the `(N, C, H, W)` difference tensor by the `(N,)`-vector of
per-sample norms broadcasts as per-sample normalization; `N = 1` is also the
data loader's default batch size — a generated difference map that is a
strictly positive scalar multiple of the reference map, with strictly
positive per-sample norm, gives a difference-consistency loss of exactly
zero in exact arithmetic.  (For `N ≥ 2` the right-aligned broadcast raises
whenever `W ≠ N`, and otherwise divides along the wrong axis.) -/
theorem bcast_diff_loss_single_parallel_zero (r : List (List (List ℝ))) (c : ℝ)
    (C H W : Nat) (hr : Rect3 C H W r) (hC : 0 < C) (hH : 0 < H) (hW : 0 < W)
    (hc : 0 < c) (hn : 0 < sampleNorm4 r) (lam lamDiff : ℚ) :
    bcast_diff_consistency_loss [scaleSample4 c r] [r] lam lamDiff =
      Except.ok (Fl.fin 0) := by
  have hn0 : sampleNorm4 r ≠ 0 := ne_of_gt hn
  have hcn : c * sampleNorm4 r ≠ 0 := mul_ne_zero (ne_of_gt hc) hn0
  simp only [bcast_diff_consistency_loss, List.map_cons, List.map_nil]
  rw [sampleNorm4_scale c (le_of_lt hc) r]
  rw [bcastDivByNorms_singleton, bcastDivByNorms_singleton]
  simp only [List.map_cons, List.map_nil]
  have hXY : (scaleSample4 c r).map (fun ch => ch.map (fun row => row.map
        (fun e => Fl.div (Fl.fin e) (Fl.fin (c * sampleNorm4 r))))) =
      r.map (fun ch => ch.map (fun row => row.map
        (fun e => Fl.div (Fl.fin e) (Fl.fin (sampleNorm4 r))))) := by
    simp only [scaleSample4, List.map_map]
    apply List.map_congr_left
    intro ch _
    simp only [Function.comp_apply, scaleMat, List.map_map]
    apply List.map_congr_left
    intro row _
    simp only [Function.comp_apply, List.map_map]
    apply List.map_congr_left
    intro e _
    simp only [Function.comp_apply]
    rw [Fl.div_fin_fin _ _ hcn, Fl.div_fin_fin _ _ hn0,
      mul_div_mul_left e (sampleNorm4 r) (ne_of_gt hc)]
  rw [hXY]
  simp only [exceptBind_ok, exceptMap_ok]
  refine congrArg Except.ok ?_
  simp only [subT4, List.zipWith_cons_cons, List.zipWith_nil_right, List.zipWith_same]
  have hzero : (r.map (fun ch => ch.map (fun row => row.map
        (fun e => Fl.div (Fl.fin e) (Fl.fin (sampleNorm4 r)))))).map
      (fun ch => ch.map (fun row => row.map (fun y => Fl.sub y y))) =
      List.replicate C (List.replicate H (List.replicate W (Fl.fin 0))) := by
    rw [← map_const_of_rect3 C H W r hr (Fl.fin 0)]
    simp only [List.map_map]
    apply List.map_congr_left
    intro ch _
    simp only [Function.comp_apply, List.map_map]
    apply List.map_congr_left
    intro row _
    simp only [Function.comp_apply, List.map_map]
    apply List.map_congr_left
    intro e _
    simp only [Function.comp_apply]
    rw [Fl.div_fin_fin _ _ hn0]
    simp [Fl.sub]
  simp only [List.map_cons, List.map_nil, List.flatten_cons, List.flatten_nil, List.append_nil]
  rw [hzero]
  rw [canonical_pipeline C H W hC (Fl.fin 0) (by simp [Fl.mul]) (by simp [Fl.add])
    (by simp [Fl.sqrt])]
  have hne : List.replicate (H * W) (Fl.fin 0) ≠ [] := by
    intro h
    have hlen := congrArg List.length h
    have hpos : 0 < H * W := Nat.mul_pos hH hW
    simp at hlen
    omega
  rw [flMean_fin_zero _ hne (fun x hx => List.eq_of_mem_replicate hx)]
  simp [Fl.mul]

/-- C7 (witness): one `(1, 1, 3)` reference sample `[[1,1,1]]` scaled by 2
satisfies every hypothesis (rectangular shape, positive scalar, norm 1) and
the shape-faithful loss evaluates to exactly zero. -/
theorem bcast_diff_loss_single_parallel_zero_witness :
    (Rect3 1 1 3 [[[(1 : ℝ), 1, 1]]] ∧ (0 : ℝ) < 2 ∧ 0 < sampleNorm4 [[[(1 : ℝ), 1, 1]]])
    ∧ bcast_diff_consistency_loss [scaleSample4 2 [[[(1 : ℝ), 1, 1]]]]
        [[[[(1 : ℝ), 1, 1]]]] 10 1 = Except.ok (Fl.fin 0) := by
  have hrect : Rect3 1 1 3 [[[(1 : ℝ), 1, 1]]] := by
    refine ⟨rfl, ?_⟩
    intro ch hch
    rw [List.mem_singleton] at hch
    subst hch
    refine ⟨rfl, ?_⟩
    intro row hr
    rw [List.mem_singleton] at hr
    subst hr
    rfl
  have hnorm : 0 < sampleNorm4 [[[(1 : ℝ), 1, 1]]] := by
    simp [sampleNorm4, sumSqOverC, sqMat, sqrtMat, rmean]
    norm_num
  exact ⟨⟨hrect, by norm_num, hnorm⟩,
    bcast_diff_loss_single_parallel_zero [[[(1 : ℝ), 1, 1]]] 2 1 1 3 hrect
      (by norm_num) (by norm_num) (by norm_num) (by norm_num) hnorm 10 1⟩

/-- C9 (counterexample): a batch of two `(1, 1, 3)` samples whose first
reference sample is all-zero (per-sample norm zero).  Instead of a
non-finite value propagating into the loss, the right-aligned broadcast of
the `(2,)` norm vector against the `W = 3` axis raises a `RuntimeError` at
the normalization (line 220) before any division is performed — an error
condition is raised and no loss value (finite or not) is produced. -/
theorem bcast_diff_loss_zero_norm_batch2_error :
    sampleNorm4 [[[(0 : ℝ), 0, 0]]] = 0
    ∧ bcast_diff_consistency_loss
        [[[[(1 : ℝ), 1, 1]]], [[[(1 : ℝ), 1, 1]]]]
        [[[[(0 : ℝ), 0, 0]]], [[[(1 : ℝ), 1, 1]]]] 10 1 =
      Except.error TorchError.broadcastMismatch := by
  refine ⟨?_, rfl⟩
  simp only [sampleNorm4, sumSqOverC, sqMat, sqrtMat, rmean]
  norm_num

/-- C9 (amended): for single-sample batches — where the `(N,)`-broadcast is
well-defined and acts as per-sample normalization — a zero per-sample norm
of the reference or of the generated difference map makes the unguarded
normalization of `backward_G` divide by zero: a non-finite value propagates
into the difference-consistency loss, which is still returned as a value
(no error condition is raised for the degenerate norm).  For batches of two
or more samples whose spatial width differs from the batch size, the
broadcast instead raises a `RuntimeError` before any division. -/
theorem bcast_diff_loss_single_zero_norm_nonfin (r g : List (List (List ℝ)))
    (C H W : Nat) (hr : Rect3 C H W r) (hg : Rect3 C H W g)
    (hC : 0 < C) (hH : 0 < H) (hW : 0 < W)
    (hbad : sampleNorm4 r = 0 ∨ sampleNorm4 g = 0) (lam lamDiff : ℚ) :
    bcast_diff_consistency_loss [g] [r] lam lamDiff = Except.ok Fl.nonfin := by
  simp only [bcast_diff_consistency_loss, List.map_cons, List.map_nil]
  rw [bcastDivByNorms_singleton, bcastDivByNorms_singleton]
  simp only [List.map_cons, List.map_nil]
  rcases hbad with hb | hb
  · rw [hb]
    have hXr : r.map (fun ch => ch.map (fun row => row.map
        (fun e => Fl.div (Fl.fin e) (Fl.fin 0)))) =
        List.replicate C (List.replicate H (List.replicate W Fl.nonfin)) := by
      rw [← map_const_of_rect3 C H W r hr Fl.nonfin]
      simp only [Fl.div_zero_den]
    rw [hXr]
    simp only [exceptBind_ok, exceptMap_ok]
    refine congrArg Except.ok ?_
    simp only [subT4, List.zipWith_cons_cons, List.zipWith_nil_right]
    rw [zip3_sub_nonfin_right C H W _ (Rect3_map C H W g hg _)]
    simp only [List.map_cons, List.map_nil, List.flatten_cons, List.flatten_nil,
      List.append_nil]
    rw [canonical_pipeline C H W hC Fl.nonfin rfl rfl rfl]
    rw [flMean_nonfin _ (List.mem_replicate.mpr ⟨(Nat.mul_pos hH hW).ne', rfl⟩)]
    rw [Fl.mul_nonfin_left, Fl.mul_nonfin_left]
  · rw [hb]
    have hXg : g.map (fun ch => ch.map (fun row => row.map
        (fun e => Fl.div (Fl.fin e) (Fl.fin 0)))) =
        List.replicate C (List.replicate H (List.replicate W Fl.nonfin)) := by
      rw [← map_const_of_rect3 C H W g hg Fl.nonfin]
      simp only [Fl.div_zero_den]
    rw [hXg]
    simp only [exceptBind_ok, exceptMap_ok]
    refine congrArg Except.ok ?_
    simp only [subT4, List.zipWith_cons_cons, List.zipWith_nil_right]
    rw [zip3_sub_nonfin_left C H W _ (Rect3_map C H W r hr _)]
    simp only [List.map_cons, List.map_nil, List.flatten_cons, List.flatten_nil,
      List.append_nil]
    rw [canonical_pipeline C H W hC Fl.nonfin rfl rfl rfl]
    rw [flMean_nonfin _ (List.mem_replicate.mpr ⟨(Nat.mul_pos hH hW).ne', rfl⟩)]
    rw [Fl.mul_nonfin_left, Fl.mul_nonfin_left]

/-- C9 (witness): single-sample batch with reference sample `[[0]]` (norm
zero) and generated sample `[[1]]`: the shape-faithful loss is returned as
the non-finite value, with no error raised. -/
theorem bcast_diff_loss_single_zero_norm_nonfin_witness :
    (Rect3 1 1 1 [[[(0 : ℝ)]]] ∧ Rect3 1 1 1 [[[(1 : ℝ)]]]
      ∧ sampleNorm4 [[[(0 : ℝ)]]] = 0)
    ∧ bcast_diff_consistency_loss [[[[(1 : ℝ)]]]] [[[[(0 : ℝ)]]]] 10 1 =
      Except.ok Fl.nonfin := by
  have hrect0 : Rect3 1 1 1 [[[(0 : ℝ)]]] := by
    refine ⟨rfl, ?_⟩
    intro ch hch
    rw [List.mem_singleton] at hch
    subst hch
    refine ⟨rfl, ?_⟩
    intro row hr
    rw [List.mem_singleton] at hr
    subst hr
    rfl
  have hrect1 : Rect3 1 1 1 [[[(1 : ℝ)]]] := by
    refine ⟨rfl, ?_⟩
    intro ch hch
    rw [List.mem_singleton] at hch
    subst hch
    refine ⟨rfl, ?_⟩
    intro row hr
    rw [List.mem_singleton] at hr
    subst hr
    rfl
  have hnorm : sampleNorm4 [[[(0 : ℝ)]]] = 0 := by
    simp only [sampleNorm4, sumSqOverC, sqMat, sqrtMat, rmean]
    norm_num
  exact ⟨⟨hrect0, hrect1, hnorm⟩,
    bcast_diff_loss_single_zero_norm_nonfin [[[(0 : ℝ)]]] [[[(1 : ℝ)]]] 1 1 1
      hrect0 hrect1 (by norm_num) (by norm_num) (by norm_num) (Or.inl hnorm) 10 1⟩
